import Mathlib

/-
Verification of the build-pipeline coordinator implemented in
`Support/bin/texMate.py`.

The Python script drives external tools (a typesetting engine, bibliography
processors, index/glossary processors) and folds the parsed output of each
run into a handful of mutable variables (`texStatus`, `isFatal`, `numErrs`,
`numWarns`, `numRuns`).  The definitions below are a shallow embedding of the
`__main__` dispatch of that script together with the helper functions the
claims refer to (`constructEngineCommand`, `getFileNameWithoutExtension`,
`find_TEX_directives`).

External processes are modelled by an oracle `env : Nat → RunResult` giving,
for the `i`-th external process spawned by the build, its exit status and the
`(fatal, errors, warnings)` triple produced by the classifier attached to its
output.  Presence of on-disk artifacts is modelled by the record `FS`:
the script only ever tests artifact existence, never file contents, in the
branches modelled here.  The selection of auxiliary files performed by
`run_bibtex` (a `glob` over `*.aux` filtered by a regular expression) is
abstracted by the number `FS.auxMatches` of files that pass the filter.
-/

/-- Triple returned by every classifier's `parseStream`:
`(fatal, number of errors, number of warnings)`. -/
structure ParseResult where
  fatal : Bool
  errors : Nat
  warnings : Nat
deriving DecidableEq

/-- Result of one external process run: the process exit status (`wait()`)
together with the `ParseResult` of the classifier bound to its output. -/
structure RunResult where
  stat : Nat
  res : ParseResult
deriving DecidableEq

/-- The external tools whose output is parsed by a classifier. -/
inductive Tool where
  | latex
  | bibtex
  | biber
  | makeindex
  | makeglossaries
deriving DecidableEq

/-- Artifact state of the typesetting directory, as consulted by the script.
`bcf`, `idx` and `glsdefs` model `os.path.exists(fileNoSuffix + ext)` for the
respective extensions; `auxMatches` is the number of `*.aux` files matching
the `run_bibtex` auxiliary-file pattern. -/
structure FS where
  bcf : Bool
  idx : Bool
  glsdefs : Bool
  auxMatches : Nat
deriving DecidableEq

/-- The values of the mutable variables a stage-running helper assigns:
the external invocations it performed (in order), the next oracle index,
and the `(stat, fatal, errors, warnings)` quadruple it returned. -/
structure StageOut where
  inv : List Tool
  k : Nat
  texStatus : Nat
  isFatal : Bool
  numErrs : Nat
  numWarns : Nat
deriving DecidableEq

/-- One external run whose output is parsed by the classifier for `t`
(models `run_latex`, `run_biber`, `run_makeindex`, `run_makeglossaries`:
each spawns exactly one process and returns its parsed result). -/
def runSingle (t : Tool) (env : Nat → RunResult) (k : Nat) : StageOut :=
  let r := env k
  { inv := [t], k := k + 1, texStatus := r.stat, isFatal := r.res.fatal,
    numErrs := r.res.errors, numWarns := r.res.warnings }

/-- `run_latex` (texMate.py lines 203-247): one engine run, output parsed by
`LaTexParser`. -/
def run_latex (env : Nat → RunResult) (k : Nat) : StageOut :=
  runSingle Tool.latex env k

/-- `run_biber` (lines 177-200): one `biber` run, output parsed by
`BiberParser`. -/
def run_biber (env : Nat → RunResult) (k : Nat) : StageOut :=
  runSingle Tool.biber env k

/-- `run_makeindex` (lines 250-288): one `makeindex` run, output parsed by
`TexParser`. -/
def run_makeindex (env : Nat → RunResult) (k : Nat) : StageOut :=
  runSingle Tool.makeindex env k

/-- `run_makeglossaries` (lines 291-314): one `makeglossaries` run, output
parsed by `MakeGlossariesParser`. -/
def run_makeglossaries (env : Nat → RunResult) (k : Nat) : StageOut :=
  runSingle Tool.makeglossaries env k

/-- The accumulation loop of `run_bibtex` (lines 163-174): starting from
`stat, fatal, errors, warnings = 0, False, 0, 0`, for each matching auxiliary
file spawn one `bibtex` process and fold its result by
`stat |= ...`, `fatal |= ...`, `errors += ...`, `warnings += ...`. -/
def runBibtexGo (env : Nat → RunResult) :
    Nat → Nat → Nat → Bool → Nat → Nat → StageOut
  | k, 0, stat, fatal, errs, warns =>
      { inv := [], k := k, texStatus := stat, isFatal := fatal,
        numErrs := errs, numWarns := warns }
  | k, n + 1, stat, fatal, errs, warns =>
      let r := env k
      let out := runBibtexGo env (k + 1) n (Nat.lor stat r.stat)
        (fatal || r.res.fatal) (errs + r.res.errors) (warns + r.res.warnings)
      { out with inv := Tool.bibtex :: out.inv }

/-- `run_bibtex` (lines 116-174): one `bibtex` run per matching auxiliary
file, results folded by addition of counts and logical-OR of flags. -/
def run_bibtex (env : Nat → RunResult) (k : Nat) (auxMatches : Nat) :
    StageOut :=
  runBibtexGo env k auxMatches 0 false 0 0

/-- The values of the script's mutable result variables when a command branch
finishes (just before the final status report of `__main__`). -/
structure MainState where
  invocations : List Tool
  numRuns : Nat
  texStatus : Option Nat
  isFatal : Option Bool
  numErrs : Nat
  numWarns : Nat
deriving DecidableEq

/-- The `builtin` branch (lines 934-953): run latex once, then biber (if a
`.bcf` file exists) or bibtex, then makeindex (if a `.idx` file exists),
then latex twice more.  Each helper's returned quadruple overwrites
`texStatus, isFatal, numErrs, numWarns`; `numRuns` is incremented only by the
three latex passes. -/
def builtinBranch (fs : FS) (env : Nat → RunResult) : MainState :=
  let s1 := run_latex env 0
  let s2 := if fs.bcf then run_biber env s1.k
            else run_bibtex env s1.k fs.auxMatches
  let s3 := if fs.idx then run_makeindex env s2.k else { s2 with inv := [] }
  let s4 := run_latex env s3.k
  let s5 := run_latex env s4.k
  { invocations := s1.inv ++ s2.inv ++ s3.inv ++ s4.inv ++ s5.inv,
    numRuns := 0 + 1 + 1 + 1,
    texStatus := some s5.texStatus, isFatal := some s5.isFatal,
    numErrs := s5.numErrs, numWarns := s5.numWarns }

/-- The `bibtex` branch (lines 909-914): biber if a `.bcf` file exists,
bibtex otherwise.  `numRuns` is never incremented here. -/
def bibtexBranch (fs : FS) (env : Nat → RunResult) : MainState :=
  let s := if fs.bcf then run_biber env 0 else run_bibtex env 0 fs.auxMatches
  { invocations := s.inv, numRuns := 0, texStatus := some s.texStatus,
    isFatal := some s.isFatal, numErrs := s.numErrs, numWarns := s.numWarns }

/-- The `index` branch (lines 916-921): makeglossaries if a `.glsdefs` file
exists, makeindex otherwise (unconditionally: the branch never skips). -/
def indexBranch (fs : FS) (env : Nat → RunResult) : MainState :=
  let s := if fs.glsdefs then run_makeglossaries env 0
           else run_makeindex env 0
  { invocations := s.inv, numRuns := 0, texStatus := some s.texStatus,
    isFatal := some s.isFatal, numErrs := s.numErrs, numWarns := s.numWarns }

/-- The fixed extension list of the `clean` branch (lines 924-927). -/
def auxiliary_file_extension : List String :=
  ["aux", "bbl", "bcf", "blg", "fdb_latexmk", "fls", "fmt", "ini", "log",
   "out", "maf", "mtc", "mtc1", "pdfsync", "run.xml", "synctex.gz", "toc"]

/-- The removal command built by the `clean` branch (lines 928-929):
`'rm ' + ' '.join(['*.' + extension for extension in ...])`. -/
def cleanCommand : String :=
  "rm " ++ String.intercalate " "
    (auxiliary_file_extension.map (fun extension => "*." ++ extension))

/-- The `clean` branch (lines 923-932): spawns the `rm` command but creates
its `ParseLatexMk` object without ever calling `parseStream`, so no tool
output is parsed, no oracle entry is consumed, and the result variables keep
their initial values (`numErrs = numWarns = 0`, `texStatus = None`,
`isFatal` never assigned). -/
def cleanBranch : MainState :=
  { invocations := [], numRuns := 0, texStatus := none, isFatal := none,
    numErrs := 0, numWarns := 0 }

/-- `usesOnePackage` (lines 717-721). -/
def usesOnePackage (testPack allPackages : List String) : Bool :=
  testPack.any (fun p => allPackages.contains p)

/-- The package lists of `constructEngineCommand` (lines 740-741). -/
def latexIndicators : List String :=
  ["pstricks", "xyling", "pst-asr", "OTtablx", "epsfig"]

/-- See `latexIndicators`. -/
def xelatexIndicators : List String := ["xunicode", "fontspec"]

/-- Engine selection of `constructEngineCommand` (lines 739-750):
the `%!TEX TS-program` directive wins, then package heuristics, then the
`latexEngine` preference. -/
def selectEngine (tsProgram : Option String) (packages : List String)
    (prefEngine : String) : String :=
  match tsProgram with
  | some p => p
  | none =>
    if usesOnePackage latexIndicators packages then "latex"
    else if usesOnePackage xelatexIndicators packages then "xelatex"
    else prefEngine

/-- The error message printed when the engine executable is not on the path
(lines 753-755). -/
def engineMissingMessage (engine : String) : String :=
  "<p class=\"error\">Error: " ++ engine ++
    " is not found, you need to install LaTeX or be sure that your PATH is setup properly.</p>"

/-- `constructEngineCommand` (lines 724-757): select the engine, then check
`type {engine}`; if the executable cannot be located, print the error message
and `sys.exit(1)`.  `available` models the success of the `type` shell test. -/
def constructEngineCommand (tsProgram : Option String) (prefEngine : String)
    (packages : List String) (available : String → Bool) :
    Except String String :=
  let engine := selectEngine tsProgram packages prefEngine
  if available engine then Except.ok engine
  else Except.error (engineMissingMessage engine)

/-- The exit-code computation at the end of `__main__` (lines 1023-1029):
`eCode = 200` iff the `latexKeepLogWin` preference is off, no errors were
counted and the viewer is not TextMate; `eCode = 0` otherwise. -/
def computeECode (keepLogWin : Bool) (numErrs : Nat) (viewer : String) :
    Nat :=
  if !keepLogWin then
    if numErrs = 0 ∧ viewer ≠ "TextMate" then 200 else 0
  else 0

/-- The command branches of `__main__` modelled here. -/
inductive TexCommand where
  | builtin
  | bibtex
  | index
  | clean
deriving DecidableEq

/-- The observable outcome of one whole build. -/
structure BuildOutcome where
  invocations : List Tool
  numRuns : Nat
  numErrs : Nat
  numWarns : Nat
  texStatus : Option Nat
  isFatal : Option Bool
  exitCode : Nat
  errorMessage : Option String
deriving DecidableEq

/-- The `__main__` flow relevant to the claims: `constructEngineCommand` runs
during setup (line 838), before any command branch; if the engine executable
is missing the script exits with status 1 and the printed error message, and
no stage ever runs.  Otherwise the selected branch runs and the final exit
code is computed from `latexKeepLogWin`, `numErrs` and the viewer. -/
def texMateMain (cmd : TexCommand) (keepLogWin : Bool) (viewer : String)
    (tsProgram : Option String) (prefEngine : String)
    (packages : List String) (available : String → Bool) (fs : FS)
    (env : Nat → RunResult) : BuildOutcome :=
  match constructEngineCommand tsProgram prefEngine packages available with
  | Except.error msg =>
      { invocations := [], numRuns := 0, numErrs := 0, numWarns := 0,
        texStatus := none, isFatal := none, exitCode := 1,
        errorMessage := some msg }
  | Except.ok _ =>
      let st :=
        match cmd with
        | TexCommand.builtin => builtinBranch fs env
        | TexCommand.bibtex => bibtexBranch fs env
        | TexCommand.index => indexBranch fs env
        | TexCommand.clean => cleanBranch
      { invocations := st.invocations, numRuns := st.numRuns,
        numErrs := st.numErrs, numWarns := st.numWarns,
        texStatus := st.texStatus, isFatal := st.isFatal,
        exitCode := computeECode keepLogWin st.numErrs viewer,
        errorMessage := none }

/-- The fixed stage schedule of the `builtin` branch, determined by the
artifacts alone. -/
def builtinSchedule (fs : FS) : List Tool :=
  [Tool.latex] ++
    (if fs.bcf then [Tool.biber] else List.replicate fs.auxMatches Tool.bibtex)
    ++ (if fs.idx then [Tool.makeindex] else []) ++ [Tool.latex, Tool.latex]

/-- Oracle index of the last external process spawned by the `builtin`
branch (the third latex pass). -/
def lastOracleIdx (fs : FS) : Nat :=
  1 + (if fs.bcf then 1 else fs.auxMatches) + (if fs.idx then 1 else 0) + 1

/-- Python's `str.rfind` on a list of characters: index of the last
occurrence of `c`, or `-1` when `c` does not occur. -/
def pyRfind (c : Char) : List Char → Int
  | [] => -1
  | x :: xs =>
    let r := pyRfind c xs
    if r ≥ 0 then r + 1 else if x = c then 0 else -1

/-- `getFileNameWithoutExtension` (texMate.py lines 760-767):
`suffStart = fileName.rfind(".")`; return `fileName[:suffStart]` when
`suffStart > 0` and `fileName` unchanged otherwise. -/
def getFileNameWithoutExtension (fileName : String) : String :=
  let suffStart := pyRfind '.' fileName.data
  if suffStart > 0 then String.mk (fileName.data.take suffStart.toNat)
  else fileName

/-- Python whitespace (the class matched by `\s` and stripped by
`str.rstrip()`). -/
def isPySpace (c : Char) : Bool :=
  c = ' ' || c = '\t' || c = '\n' || c = '\x0b' || c = '\x0c' || c = '\r'

/-- A character matched by `[\w-]` in the directive regular expression. -/
def isWordDash (c : Char) : Bool :=
  c.isAlpha || c.isDigit || c = '_' || c = '-'

/-- Python's `str.rstrip()`: remove trailing whitespace. -/
def pyRstrip (s : String) : String :=
  String.mk ((s.data.reverse.dropWhile isPySpace).reverse)

/-- `posixpath.dirname`: everything before the last slash, with trailing
slashes stripped unless the result consists of slashes only. -/
def pyDirname (p : String) : String :=
  let i := (pyRfind '/' p.data + 1).toNat
  let head := p.data.take i
  if head ≠ [] ∧ head.any (fun c => c ≠ '/') then
    String.mk ((head.reverse.dropWhile (fun c => c = '/')).reverse)
  else String.mk head

/-- `posixpath.join a b` for the case used by `find_TEX_directives`. -/
def pyJoin (a b : String) : String :=
  match b.data with
  | '/' :: _ => b
  | _ =>
    if a = "" then a ++ b
    else match a.data.getLast? with
      | some '/' => a ++ b
      | _ => a ++ "/" ++ b

/-- Consumption of the single optional whitespace character standing after
the equals sign (`\s?` before the second capture group). -/
def dropOneSpace (v : List Char) : List Char :=
  match v with
  | [] => []
  | c :: v2 => if isPySpace c then v2 else v

/-- The match of `re.match(r'^%!TEX\s+([\w-]+)\s?=\s?(.*)', line)`
(texMate.py line 640): on success, the pair of the two capture groups
(directive key and raw value).  The line is anchored at its start; `\s+`
needs at least one whitespace character; the key is a maximal nonempty run
of word characters or hyphens; at most one whitespace character may stand on
each side of the equals sign; the value is the rest of the line. -/
def matchTexDirective (line : String) : Option (String × String) :=
  match line.data with
  | '%' :: '!' :: 'T' :: 'E' :: 'X' :: rest =>
    match rest with
    | [] => none
    | c0 :: _ =>
      if isPySpace c0 then
        let rest1 := rest.dropWhile isPySpace
        let key := rest1.takeWhile isWordDash
        if key = [] then none
        else
          match rest1.dropWhile isWordDash with
          | '=' :: v => some (String.mk key, String.mk (dropOneSpace v))
          | c :: '=' :: v =>
            if isPySpace c then some (String.mk key, String.mk (dropOneSpace v))
            else none
          | _ => none
      else none
  | _ => none

/-- Resolution of a `root` directive value (lines 644-648): an absolute value
(leading slash) is only right-stripped; a relative value is joined to the
current start directory and passed through `os.path.realpath`, which is
abstracted as the parameter `rp`. -/
def pyResolveRoot (rp : String → String) (startDir v : String) : String :=
  match v.data with
  | '/' :: _ => pyRstrip v
  | _ => rp (pyJoin startDir (pyRstrip v))

/-- Assignment into the `tsDirectives` dictionary. -/
def dictInsert (d : List (String × String)) (key v : String) :
    List (String × String) :=
  if d.any (fun p => p.1 = key) then
    d.map (fun p => if p.1 = key then (key, v) else p)
  else d ++ [(key, v)]

/-- The loop state of `find_TEX_directives` (lines 630-667): the file
currently scanned, its directory, the chain of visited root files, the
directive dictionary collected so far, and the `foundNewRoot` flag. -/
structure ScanSt where
  texfile : String
  startDir : String
  chain : List String
  dirs : List (String × String)
  foundNewRoot : Bool
deriving DecidableEq

/-- Possible outcomes of `find_TEX_directives`.  `loopExit` models the
`sys.exit(-1)` taken, after printing the loop error message, when a root
directive resolves to a file already in the chain; `openFail` models the
unhandled exception of `open` on a missing file; `emptyRootFail` models the
unhandled `IndexError` of `m.group(2)[0]` on an empty root value;
`outOfFuel` is the artefact of the bounded model and is proved unreachable. -/
inductive TexDirOutcome where
  | ok (dirs : List (String × String))
  | loopExit (chain : List String)
  | openFail (texfile : String)
  | emptyRootFail
  | outOfFuel
deriving DecidableEq

/-- Processing of one line inside the 20-line scan (lines 639-661). -/
def scanLine (rp : String → String) (st : ScanSt) (line : String) :
    Except TexDirOutcome ScanSt :=
  match matchTexDirective line with
  | none => Except.ok st
  | some (key, value) =>
    if key = "root" then
      match value.data with
      | [] => Except.error TexDirOutcome.emptyRootFail
      | _ :: _ =>
        let newtf := pyResolveRoot rp st.startDir value
        if newtf ∈ st.chain then
          Except.error (TexDirOutcome.loopExit st.chain)
        else
          Except.ok { texfile := newtf, startDir := pyDirname newtf,
                      chain := st.chain ++ [newtf],
                      dirs := dictInsert st.dirs "root" newtf,
                      foundNewRoot := true }
    else Except.ok { st with dirs := dictInsert st.dirs key (pyRstrip value) }

/-- Sequential processing of a list of lines, stopping at the first exit. -/
def scanLinesGo (rp : String → String) (st : ScanSt) :
    List String → Except TexDirOutcome ScanSt
  | [] => Except.ok st
  | l :: ls =>
    match scanLine rp st l with
    | Except.error e => Except.error e
    | Except.ok st2 => scanLinesGo rp st2 ls

/-- The `i`-th `f.readline()` result: the `i`-th line of the file, or the
empty string once the file is exhausted. -/
def readLineAt (lines : List String) (i : Nat) : String :=
  ((lines.get? i).getD "")

/-- One pass of the `for i in range(20)` loop (lines 638-661): exactly the
first 20 `readline` results of the file are examined. -/
def scanFile (rp : String → String) (st : ScanSt) (lines : List String) :
    Except TexDirOutcome ScanSt :=
  scanLinesGo rp st ((List.range 20).map (readLineAt lines))

/-- One iteration of the `while not done` loop: open the current file
(`Sum.inl` on any exit, `Sum.inr` with the new state when a new root was
found and the loop continues). -/
def findStep (rp : String → String) (fs : List (String × List String))
    (st : ScanSt) : TexDirOutcome ⊕ ScanSt :=
  match fs.lookup st.texfile with
  | none => Sum.inl (TexDirOutcome.openFail st.texfile)
  | some lines =>
    match scanFile rp { st with foundNewRoot := false } lines with
    | Except.error e => Sum.inl e
    | Except.ok st2 =>
      if st2.foundNewRoot then Sum.inr st2
      else Sum.inl (TexDirOutcome.ok st2.dirs)

/-- The `while not done` loop, bounded by fuel.  The termination theorem
shows that the fuel chosen by `find_TEX_directives` always suffices. -/
def findTexDirectivesGo (rp : String → String)
    (fs : List (String × List String)) : Nat → ScanSt → TexDirOutcome
  | 0, st =>
    match findStep rp fs st with
    | Sum.inl r => r
    | Sum.inr _ => TexDirOutcome.outOfFuel
  | n + 1, st =>
    match findStep rp fs st with
    | Sum.inl r => r
    | Sum.inr st2 => findTexDirectivesGo rp fs n st2

/-- Initial state of `find_TEX_directives` (lines 630-634):
`rootChain = [texfile]`, empty dictionary. -/
def initScanSt (texfile : String) : ScanSt :=
  { texfile := texfile, startDir := pyDirname texfile, chain := [texfile],
    dirs := [], foundNewRoot := false }

/-- `find_TEX_directives` (lines 619-667) over a finite filesystem `fs`
(an association list from file path to list of lines) with `os.path.realpath`
abstracted as `rp`. -/
def find_TEX_directives (rp : String → String)
    (fs : List (String × List String)) (texfile : String) : TexDirOutcome :=
  findTexDirectivesGo rp fs (fs.length + 1) (initScanSt texfile)

/-- Number of filesystem keys not yet visited: the termination measure of
the root-chain loop. -/
def keysLeft (fs : List (String × List String)) (chain : List String) :
    Nat :=
  ((fs.map Prod.fst).toFinset \ chain.toFinset).card

theorem pyRfind_of_not_mem {c : Char} :
    ∀ {l : List Char}, c ∉ l → pyRfind c l = -1
  | [], _ => rfl
  | x :: xs, h => by
    have hx : ¬ (x = c) := fun he => h (he ▸ List.mem_cons_self x xs)
    have hxs : c ∉ xs := fun hm => h (List.mem_cons_of_mem x hm)
    have ih := pyRfind_of_not_mem hxs
    simp only [pyRfind, ih]
    norm_num [hx]

theorem pyRfind_eq_of_get? {c : Char} :
    ∀ (l : List Char) (j : Nat), l.get? j = some c →
      (∀ k, k < l.length → j < k → l.get? k ≠ some c) →
      pyRfind c l = (j : Int)
  | [], j, hj, _ => by simp at hj
  | x :: xs, 0, hj, hk => by
    have hx : x = c := by simpa using hj
    have hxs : c ∉ xs := by
      intro hm
      obtain ⟨i, hi⟩ := List.mem_iff_get?.mp hm
      have hlen : i < xs.length := (List.get?_eq_some.mp hi).1
      exact hk (i + 1) (by simpa using Nat.succ_lt_succ hlen)
        (Nat.succ_pos i) (by simpa using hi)
    simp only [pyRfind, pyRfind_of_not_mem hxs]
    norm_num [hx]
  | x :: xs, j + 1, hj, hk => by
    have hj2 : xs.get? j = some c := by simpa using hj
    have hk2 : ∀ k, k < xs.length → j < k → xs.get? k ≠ some c := by
      intro k hlen hlt hc
      exact hk (k + 1) (by simpa using Nat.succ_lt_succ hlen)
        (Nat.succ_lt_succ hlt) (by simpa using hc)
    have ih := pyRfind_eq_of_get? xs j hj2 hk2
    simp only [pyRfind, ih]
    have hge : ((j : Int)) ≥ 0 := Int.natCast_nonneg j
    simp [hge]

/-- Claim C9: `getFileNameWithoutExtension` strips only the suffix after the
last dot, and only when that dot sits at an index strictly greater than 0:
a filename with no dot, or whose only dot is its first character, is
returned unchanged; any other filename is cut just before its last dot. -/
theorem getFileNameWithoutExtension_spec :
    (∀ s : String, '.' ∉ s.data → getFileNameWithoutExtension s = s) ∧
    (∀ s : String, s.data.head? = some '.' → '.' ∉ s.data.tail →
      getFileNameWithoutExtension s = s) ∧
    (∀ (s : String) (j : Nat), 0 < j → s.data.get? j = some '.' →
      (∀ k, k < s.data.length → j < k → s.data.get? k ≠ some '.') →
      getFileNameWithoutExtension s = String.mk (s.data.take j)) := by
  refine ⟨fun s h => ?_, fun s h1 h2 => ?_, fun s j hj hget hlast => ?_⟩
  · simp [getFileNameWithoutExtension, pyRfind_of_not_mem h]
  · obtain ⟨x, xs, hd⟩ : ∃ x xs, s.data = x :: xs := by
      cases hcase : s.data with
      | nil => rw [hcase] at h1; simp at h1
      | cons a l => exact ⟨a, l, rfl⟩
    have hx : x = '.' := by
      rw [hd] at h1
      simpa using h1
    have hxs : '.' ∉ xs := by
      rw [hd] at h2
      simpa using h2
    have h0 : pyRfind '.' s.data = 0 := by
      rw [hd]
      simp only [pyRfind, pyRfind_of_not_mem hxs]
      norm_num [hx]
    simp [getFileNameWithoutExtension, h0]
  · have hr : pyRfind '.' s.data = (j : Int) :=
      pyRfind_eq_of_get? s.data j hget hlast
    have hpos : (0 : Int) < (j : Int) := by exact_mod_cast hj
    simp [getFileNameWithoutExtension, hr, hpos]

theorem getFileNameWithoutExtension_spec_witness :
    getFileNameWithoutExtension "readme" = "readme" ∧
    getFileNameWithoutExtension ".profile" = ".profile" ∧
    getFileNameWithoutExtension "a.b.c" = String.mk ("a.b.c".data.take 3) :=
  ⟨getFileNameWithoutExtension_spec.1 "readme" (by decide),
   getFileNameWithoutExtension_spec.2.1 ".profile" (by decide) (by decide),
   getFileNameWithoutExtension_spec.2.2 "a.b.c" 3 (by decide) (by decide)
     (by decide)⟩

/-- Claim C5, counterexample: with the `latexKeepLogWin` preference enabled,
an error-free build under a non-TextMate viewer exits with code 0, not with
the distinct code 200 the claim requires for exactly that situation. -/
theorem eCode_keepLogWin_counterexample :
    computeECode true 0 "Skim" = 0 ∧ (0 : Nat) = 0 ∧ "Skim" ≠ "TextMate" := by
  decide

/-- Claim C5, amended: the final exit code is 200 exactly when the
`latexKeepLogWin` preference is disabled, the cumulative error count is 0 and
the configured viewer is not TextMate; in every other case it is 0. -/
theorem eCode_spec (keepLogWin : Bool) (numErrs : Nat) (viewer : String) :
    (computeECode keepLogWin numErrs viewer = 200 ∨
      computeECode keepLogWin numErrs viewer = 0) ∧
    (computeECode keepLogWin numErrs viewer = 200 ↔
      keepLogWin = false ∧ numErrs = 0 ∧ viewer ≠ "TextMate") := by
  cases keepLogWin
  · by_cases h : numErrs = 0 ∧ viewer ≠ "TextMate"
    · simp [computeECode, h]
    · simp only [computeECode, Bool.not_false, if_true, if_neg h]
      simp [h]
  · simp [computeECode]

theorem eCode_spec_witness : computeECode false 0 "Skim" = 200 :=
  (eCode_spec false 0 "Skim").2.mpr ⟨rfl, rfl, by decide⟩

/-- Claim C8: the cleanup command removes build artifacts selected by the
fixed extension list (the literal command below), consumes no oracle entry
and parses no tool output, and leaves the reported error and warning counts
at zero for every build configuration — also when nothing matches, since the
command is independent of the directory contents. -/
theorem clean_spec :
    cleanCommand =
      "rm *.aux *.bbl *.bcf *.blg *.fdb_latexmk *.fls *.fmt *.ini *.log *.out *.maf *.mtc *.mtc1 *.pdfsync *.run.xml *.synctex.gz *.toc" ∧
    cleanBranch.invocations = [] ∧ cleanBranch.numErrs = 0 ∧
    cleanBranch.numWarns = 0 ∧ cleanBranch.numRuns = 0 ∧
    cleanBranch.texStatus = none ∧
    ∀ (keepLogWin : Bool) (viewer : String) (tsProgram : Option String)
      (prefEngine : String) (packages : List String)
      (available : String → Bool) (fs : FS) (env : Nat → RunResult),
      (texMateMain TexCommand.clean keepLogWin viewer tsProgram prefEngine
          packages available fs env).numErrs = 0 ∧
      (texMateMain TexCommand.clean keepLogWin viewer tsProgram prefEngine
          packages available fs env).numWarns = 0 ∧
      (texMateMain TexCommand.clean keepLogWin viewer tsProgram prefEngine
          packages available fs env).invocations = [] := by
  refine ⟨by decide, rfl, rfl, rfl, rfl, rfl, ?_⟩
  intro keepLogWin viewer tsProgram prefEngine packages available fs env
  unfold texMateMain
  cases constructEngineCommand tsProgram prefEngine packages available <;>
    simp [cleanBranch]

/-- Claim C6: if the selected typesetting-engine executable cannot be located
(`type {engine}` fails), the build exits with status 1 and the printed error
message before any stage runs, for every command branch, independently of any
`ParseResult` the oracle could deliver. -/
theorem engine_missing_aborts (cmd : TexCommand) (keepLogWin : Bool)
    (viewer : String) (tsProgram : Option String) (prefEngine : String)
    (packages : List String) (available : String → Bool) (fs : FS)
    (env : Nat → RunResult)
    (h : available (selectEngine tsProgram packages prefEngine) = false) :
    (texMateMain cmd keepLogWin viewer tsProgram prefEngine packages
        available fs env).invocations = [] ∧
    (texMateMain cmd keepLogWin viewer tsProgram prefEngine packages
        available fs env).exitCode = 1 ∧
    (texMateMain cmd keepLogWin viewer tsProgram prefEngine packages
        available fs env).exitCode ≠ 0 ∧
    (texMateMain cmd keepLogWin viewer tsProgram prefEngine packages
        available fs env).errorMessage =
      some (engineMissingMessage (selectEngine tsProgram packages prefEngine)) ∧
    ∀ env2 : Nat → RunResult,
      texMateMain cmd keepLogWin viewer tsProgram prefEngine packages
        available fs env =
      texMateMain cmd keepLogWin viewer tsProgram prefEngine packages
        available fs env2 := by
  have hcec : constructEngineCommand tsProgram prefEngine packages available =
      Except.error
        (engineMissingMessage (selectEngine tsProgram packages prefEngine)) := by
    simp [constructEngineCommand, h]
  unfold texMateMain
  rw [hcec]
  simp

theorem engine_missing_aborts_witness :
    (texMateMain TexCommand.builtin false "Skim" none "pdflatex" []
        (fun _ => false) ⟨false, false, false, 0⟩
        (fun _ => ⟨0, ⟨false, 0, 0⟩⟩)).invocations = [] ∧
    (texMateMain TexCommand.builtin false "Skim" none "pdflatex" []
        (fun _ => false) ⟨false, false, false, 0⟩
        (fun _ => ⟨0, ⟨false, 0, 0⟩⟩)).exitCode = 1 :=
  ⟨(engine_missing_aborts TexCommand.builtin false "Skim" none "pdflatex" []
      (fun _ => false) ⟨false, false, false, 0⟩
      (fun _ => ⟨0, ⟨false, 0, 0⟩⟩) rfl).1,
   (engine_missing_aborts TexCommand.builtin false "Skim" none "pdflatex" []
      (fun _ => false) ⟨false, false, false, 0⟩
      (fun _ => ⟨0, ⟨false, 0, 0⟩⟩) rfl).2.1⟩

theorem runBibtexGo_inv (env : Nat → RunResult) :
    ∀ (n k stat : Nat) (fatal : Bool) (errs warns : Nat),
      (runBibtexGo env k n stat fatal errs warns).inv =
        List.replicate n Tool.bibtex
  | 0, _, _, _, _, _ => rfl
  | n + 1, k, stat, fatal, errs, warns => by
    simp only [runBibtexGo, List.replicate_succ]
    rw [runBibtexGo_inv env n]

theorem runBibtexGo_k (env : Nat → RunResult) :
    ∀ (n k stat : Nat) (fatal : Bool) (errs warns : Nat),
      (runBibtexGo env k n stat fatal errs warns).k = k + n
  | 0, _, _, _, _, _ => rfl
  | n + 1, k, stat, fatal, errs, warns => by
    simp only [runBibtexGo]
    rw [runBibtexGo_k env n]
    omega

theorem builtin_inv_eq (fs : FS) (env : Nat → RunResult) :
    (builtinBranch fs env).invocations = builtinSchedule fs := by
  rcases fs with ⟨bcf, idx, gls, aux⟩
  cases bcf <;> cases idx <;>
    simp [builtinBranch, builtinSchedule, run_latex, run_biber,
      run_makeindex, run_bibtex, runSingle, runBibtexGo_inv]

/-- Claim C4: whenever the bibliography stage runs — in the single-stage
`bibtex` command and in the `builtin` sequence alike — the alternate
processor biber is selected exactly when the `.bcf` bibliography-control
artifact exists, and every process spawned otherwise is a bibtex run (one
per matching auxiliary file). -/
theorem bibliography_variant_selection (fs : FS) (env : Nat → RunResult) :
    ((bibtexBranch fs env).invocations =
      if fs.bcf then [Tool.biber]
      else List.replicate fs.auxMatches Tool.bibtex) ∧
    (Tool.biber ∈ (builtinBranch fs env).invocations ↔ fs.bcf = true) ∧
    (fs.bcf = true → Tool.bibtex ∉ (builtinBranch fs env).invocations) := by
  refine ⟨?_, ?_, ?_⟩
  · rcases fs with ⟨bcf, idx, gls, aux⟩
    cases bcf <;>
      simp [bibtexBranch, run_biber, run_bibtex, runSingle, runBibtexGo_inv]
  · rw [builtin_inv_eq]
    rcases fs with ⟨bcf, idx, gls, aux⟩
    cases bcf <;> cases idx <;>
      simp [builtinSchedule, List.mem_replicate]
  · intro hb
    rw [builtin_inv_eq]
    rcases fs with ⟨bcf, idx, gls, aux⟩
    cases hb
    cases idx <;> simp [builtinSchedule]

theorem bibliography_variant_selection_witness :
    (Tool.biber ∈ (builtinBranch ⟨true, false, false, 0⟩
      (fun _ => ⟨0, ⟨false, 0, 0⟩⟩)).invocations) ∧
    (Tool.bibtex ∉ (builtinBranch ⟨true, false, false, 0⟩
      (fun _ => ⟨0, ⟨false, 0, 0⟩⟩)).invocations) :=
  ⟨(bibliography_variant_selection ⟨true, false, false, 0⟩
      (fun _ => ⟨0, ⟨false, 0, 0⟩⟩)).2.1.mpr rfl,
   (bibliography_variant_selection ⟨true, false, false, 0⟩
      (fun _ => ⟨0, ⟨false, 0, 0⟩⟩)).2.2 rfl⟩

/-- Claim C1, counterexample: a directory with no `.bcf`, no `.idx` and no
`.glsdefs` artifact but one auxiliary file matching the `run_bibtex` pattern
makes the `builtin` sequence spawn a bibtex process, so the claim that no
bibliography stage is invoked under the stated hypotheses is false. -/
theorem builtin_bibtex_spawn_counterexample :
    (⟨false, false, false, 1⟩ : FS).bcf = false ∧
    (⟨false, false, false, 1⟩ : FS).idx = false ∧
    (⟨false, false, false, 1⟩ : FS).glsdefs = false ∧
    Tool.bibtex ∈ (builtinBranch ⟨false, false, false, 1⟩
      (fun _ => ⟨0, ⟨false, 0, 0⟩⟩)).invocations := by
  decide

/-- Claim C1, amended: for a document with no bibliography-control artifact,
no index or glossary artifact, and additionally no auxiliary file matching
the bibliography pattern, the `builtin` sequence performs exactly three
typesetting passes (`numRuns = 3`) and spawns no bibliography-processor and
no index-processor process (the `run_bibtex` code path is still entered, but
it spawns one process per matching auxiliary file, hence none). -/
theorem builtin_three_passes (fs : FS) (env : Nat → RunResult)
    (hb : fs.bcf = false) (hi : fs.idx = false) (hg : fs.glsdefs = false)
    (ha : fs.auxMatches = 0) :
    (builtinBranch fs env).invocations =
      [Tool.latex, Tool.latex, Tool.latex] ∧
    (builtinBranch fs env).numRuns = 3 := by
  constructor
  · rw [builtin_inv_eq]
    simp [builtinSchedule, hb, hi, ha]
  · rcases fs with ⟨bcf, idx, gls, aux⟩
    simp [builtinBranch]

theorem builtin_three_passes_witness :
    (builtinBranch ⟨false, false, false, 0⟩
      (fun _ => ⟨0, ⟨false, 0, 0⟩⟩)).invocations =
      [Tool.latex, Tool.latex, Tool.latex] ∧
    (builtinBranch ⟨false, false, false, 0⟩
      (fun _ => ⟨0, ⟨false, 0, 0⟩⟩)).numRuns = 3 :=
  builtin_three_passes ⟨false, false, false, 0⟩
    (fun _ => ⟨0, ⟨false, 0, 0⟩⟩) rfl rfl rfl rfl

/-- Claim C2, counterexample: when the very first typesetting pass reports a
fatal result, the `builtin` pipeline still runs the two remaining typesetting
passes (three invocations in total, not one), and the counts reported at the
end are those of the last pass, not those accumulated up to the fatal
stage. -/
theorem builtin_fatal_continue_counterexample :
    ((fun k => if k = 0 then (⟨0, ⟨true, 5, 7⟩⟩ : RunResult)
        else ⟨0, ⟨false, 0, 0⟩⟩) 0).res.fatal = true ∧
    (builtinBranch ⟨false, false, false, 0⟩
      (fun k => if k = 0 then ⟨0, ⟨true, 5, 7⟩⟩
        else ⟨0, ⟨false, 0, 0⟩⟩)).invocations.length = 3 ∧
    (builtinBranch ⟨false, false, false, 0⟩
      (fun k => if k = 0 then ⟨0, ⟨true, 5, 7⟩⟩
        else ⟨0, ⟨false, 0, 0⟩⟩)).numErrs = 0 ∧
    (builtinBranch ⟨false, false, false, 0⟩
      (fun k => if k = 0 then ⟨0, ⟨true, 5, 7⟩⟩
        else ⟨0, ⟨false, 0, 0⟩⟩)).isFatal = some false := by
  decide

/-- Claim C2, amended: the `builtin` pipeline contains no fatal check at all.
The sequence of external invocations is determined by the artifacts alone and
is therefore identical for every oracle — in particular, every scheduled
stage still runs after a stage whose `ParseResult` is fatal. -/
theorem builtin_schedule_independent_of_results (fs : FS)
    (env env2 : Nat → RunResult) :
    (builtinBranch fs env).invocations = builtinSchedule fs ∧
    (builtinBranch fs env).invocations =
      (builtinBranch fs env2).invocations := by
  refine ⟨builtin_inv_eq fs env, ?_⟩
  rw [builtin_inv_eq, builtin_inv_eq]

theorem runBibtexGo_numErrs (env : Nat → RunResult) :
    ∀ (n k stat : Nat) (fatal : Bool) (errs warns : Nat),
      (runBibtexGo env k n stat fatal errs warns).numErrs =
        errs + ∑ i in Finset.range n, (env (k + i)).res.errors
  | 0, _, _, _, _, _ => by simp [runBibtexGo]
  | n + 1, k, stat, fatal, errs, warns => by
    simp only [runBibtexGo]
    rw [runBibtexGo_numErrs env n]
    rw [Finset.sum_range_succ' (fun i => (env (k + i)).res.errors) n]
    have harg : ∀ i : Nat, k + 1 + i = k + (i + 1) := by omega
    simp only [harg, Nat.add_zero]
    omega

theorem runBibtexGo_numWarns (env : Nat → RunResult) :
    ∀ (n k stat : Nat) (fatal : Bool) (errs warns : Nat),
      (runBibtexGo env k n stat fatal errs warns).numWarns =
        warns + ∑ i in Finset.range n, (env (k + i)).res.warnings
  | 0, _, _, _, _, _ => by simp [runBibtexGo]
  | n + 1, k, stat, fatal, errs, warns => by
    simp only [runBibtexGo]
    rw [runBibtexGo_numWarns env n]
    rw [Finset.sum_range_succ' (fun i => (env (k + i)).res.warnings) n]
    have harg : ∀ i : Nat, k + 1 + i = k + (i + 1) := by omega
    simp only [harg, Nat.add_zero]
    omega

theorem runBibtexGo_isFatal (env : Nat → RunResult) :
    ∀ (n k stat : Nat) (fatal : Bool) (errs warns : Nat),
      (runBibtexGo env k n stat fatal errs warns).isFatal =
        (fatal || (List.range n).any (fun i => (env (k + i)).res.fatal))
  | 0, _, _, _, _, _ => by simp [runBibtexGo]
  | n + 1, k, stat, fatal, errs, warns => by
    simp only [runBibtexGo]
    rw [runBibtexGo_isFatal env n]
    rw [List.range_succ_eq_map]
    have harg : ∀ i : Nat, k + 1 + i = k + (i + 1) := by omega
    simp [List.any_map, Function.comp_def, harg, Bool.or_assoc]

/-- Claim C3, counterexample: with the first typesetting pass reporting 3
errors, 4 warnings and a fatal flag, and every later stage clean, the final
counts of the `builtin` pipeline are not the sums over the executed stages
and the final fatal flag is not their logical OR — the first pass's results
are simply overwritten. -/
theorem builtin_counts_not_summed_counterexample :
    (builtinBranch ⟨false, false, false, 0⟩
        (fun k => if k = 0 then ⟨0, ⟨true, 3, 4⟩⟩
          else ⟨0, ⟨false, 0, 0⟩⟩)).numErrs ≠
      ((fun k => if k = 0 then (⟨0, ⟨true, 3, 4⟩⟩ : RunResult)
          else ⟨0, ⟨false, 0, 0⟩⟩) 0).res.errors +
        ((fun k => if k = 0 then (⟨0, ⟨true, 3, 4⟩⟩ : RunResult)
          else ⟨0, ⟨false, 0, 0⟩⟩) 1).res.errors +
        ((fun k => if k = 0 then (⟨0, ⟨true, 3, 4⟩⟩ : RunResult)
          else ⟨0, ⟨false, 0, 0⟩⟩) 2).res.errors ∧
    (builtinBranch ⟨false, false, false, 0⟩
        (fun k => if k = 0 then ⟨0, ⟨true, 3, 4⟩⟩
          else ⟨0, ⟨false, 0, 0⟩⟩)).isFatal ≠
      some (((fun k => if k = 0 then (⟨0, ⟨true, 3, 4⟩⟩ : RunResult)
          else ⟨0, ⟨false, 0, 0⟩⟩) 0).res.fatal ||
        ((fun k => if k = 0 then (⟨0, ⟨true, 3, 4⟩⟩ : RunResult)
          else ⟨0, ⟨false, 0, 0⟩⟩) 1).res.fatal ||
        ((fun k => if k = 0 then (⟨0, ⟨true, 3, 4⟩⟩ : RunResult)
          else ⟨0, ⟨false, 0, 0⟩⟩) 2).res.fatal) := by
  decide

/-- Claim C3, amended: across stages nothing is accumulated — the final
error count, warning count and fatal flag of the `builtin` pipeline are
exactly those of the last executed stage (the third typesetting pass).
Only inside the bibtex stage are the per-auxiliary-file sub-runs folded by
addition of counts and logical OR of the fatal flags. -/
theorem builtin_counts_last_stage (fs : FS) (env : Nat → RunResult) :
    ((builtinBranch fs env).numErrs = (env (lastOracleIdx fs)).res.errors ∧
     (builtinBranch fs env).numWarns =
       (env (lastOracleIdx fs)).res.warnings ∧
     (builtinBranch fs env).isFatal =
       some ((env (lastOracleIdx fs)).res.fatal)) ∧
    ∀ k n : Nat,
      ((run_bibtex env k n).numErrs =
        ∑ i in Finset.range n, (env (k + i)).res.errors) ∧
      ((run_bibtex env k n).numWarns =
        ∑ i in Finset.range n, (env (k + i)).res.warnings) ∧
      ((run_bibtex env k n).isFatal = true ↔
        ∃ i, i < n ∧ (env (k + i)).res.fatal = true) := by
  constructor
  · rcases fs with ⟨bcf, idx, gls, aux⟩
    cases bcf <;> cases idx <;>
      simp [builtinBranch, lastOracleIdx, run_latex, run_biber,
        run_makeindex, run_bibtex, runSingle, runBibtexGo_k]
  · intro k n
    refine ⟨?_, ?_, ?_⟩
    · rw [run_bibtex, runBibtexGo_numErrs env n]
      omega
    · rw [run_bibtex, runBibtexGo_numWarns env n]
      omega
    · rw [run_bibtex, runBibtexGo_isFatal env n]
      simp [List.any_eq_true, List.mem_range]

/-- Claim C7, counterexample: in the single-stage `index` command, a
directory with neither a glossary-definitions artifact nor an index-control
file still gets a makeindex run — the stage is not skipped as the claim
requires. -/
theorem index_stage_not_skipped_counterexample :
    (⟨false, false, false, 0⟩ : FS).glsdefs = false ∧
    (⟨false, false, false, 0⟩ : FS).idx = false ∧
    (indexBranch ⟨false, false, false, 0⟩
      (fun _ => ⟨0, ⟨false, 0, 0⟩⟩)).invocations = [Tool.makeindex] := by
  decide

/-- Claim C7, amended: in the single-stage `index` command, makeglossaries
is chosen exactly when the `.glsdefs` artifact exists and otherwise
makeindex runs unconditionally (the stage is never skipped); in the
`builtin` sequence the index stage runs exactly when a `.idx` file exists
and always uses makeindex, ignoring the glossary artifact. -/
theorem index_variant_selection (fs : FS) (env : Nat → RunResult) :
    ((indexBranch fs env).invocations =
      if fs.glsdefs then [Tool.makeglossaries] else [Tool.makeindex]) ∧
    (Tool.makeindex ∈ (builtinBranch fs env).invocations ↔ fs.idx = true) ∧
    Tool.makeglossaries ∉ (builtinBranch fs env).invocations := by
  refine ⟨?_, ?_, ?_⟩
  · rcases fs with ⟨bcf, idx, gls, aux⟩
    cases gls <;>
      simp [indexBranch, run_makeindex, run_makeglossaries, runSingle]
  · rw [builtin_inv_eq]
    rcases fs with ⟨bcf, idx, gls, aux⟩
    cases bcf <;> cases idx <;>
      simp [builtinSchedule, List.mem_replicate]
  · rw [builtin_inv_eq]
    rcases fs with ⟨bcf, idx, gls, aux⟩
    cases bcf <;> cases idx <;>
      simp [builtinSchedule, List.mem_replicate]

theorem index_variant_selection_witness :
    Tool.makeindex ∈ (builtinBranch ⟨false, true, true, 0⟩
      (fun _ => ⟨0, ⟨false, 0, 0⟩⟩)).invocations ∧
    Tool.makeglossaries ∉ (builtinBranch ⟨false, true, true, 0⟩
      (fun _ => ⟨0, ⟨false, 0, 0⟩⟩)).invocations :=
  ⟨(index_variant_selection ⟨false, true, true, 0⟩
      (fun _ => ⟨0, ⟨false, 0, 0⟩⟩)).2.1.mpr rfl,
   (index_variant_selection ⟨false, true, true, 0⟩
      (fun _ => ⟨0, ⟨false, 0, 0⟩⟩)).2.2⟩

theorem scanLine_error_cases {rp : String → String} {st : ScanSt}
    {line : String} {e : TexDirOutcome}
    (h : scanLine rp st line = Except.error e) :
    e = TexDirOutcome.emptyRootFail ∨ e = TexDirOutcome.loopExit st.chain := by
  unfold scanLine at h
  rcases hm : matchTexDirective line with _ | ⟨key, value⟩ <;>
    simp only [hm] at h
  · exact absurd h (by simp)
  · by_cases hk : key = "root"
    · rw [if_pos hk] at h
      rcases hv : value.data with _ | ⟨c, rest⟩ <;> simp only [hv] at h
      · left
        simpa using h.symm
      · by_cases hmem : pyResolveRoot rp st.startDir value ∈ st.chain
        · rw [if_pos hmem] at h
          right
          simpa using h.symm
        · rw [if_neg hmem] at h
          exact absurd h (by simp)
    · rw [if_neg hk] at h
      exact absurd h (by simp)

theorem scanLinesGo_error_cases {rp : String → String} :
    ∀ (ls : List String) (st : ScanSt) (e : TexDirOutcome),
      scanLinesGo rp st ls = Except.error e →
      e = TexDirOutcome.emptyRootFail ∨ ∃ ch, e = TexDirOutcome.loopExit ch
  | [], st, e, h => by simp [scanLinesGo] at h
  | l :: ls, st, e, h => by
    rw [scanLinesGo] at h
    rcases hl : scanLine rp st l with e2 | st2 <;> simp only [hl] at h
    · have he : e2 = e := by simpa using h
      subst he
      rcases scanLine_error_cases hl with h1 | h1
      · exact Or.inl h1
      · exact Or.inr ⟨st.chain, h1⟩
    · exact scanLinesGo_error_cases ls st2 e h

theorem scanLine_chain {rp : String → String} {st : ScanSt} {line : String}
    {st2 : ScanSt} (h : scanLine rp st line = Except.ok st2) :
    st.chain ⊆ st2.chain ∧
      ((st2.foundNewRoot = st.foundNewRoot ∧ st2.texfile = st.texfile ∧
        st2.chain = st.chain) ∨
       (st2.foundNewRoot = true ∧ st2.texfile ∈ st2.chain ∧
        st2.texfile ∉ st.chain)) := by
  unfold scanLine at h
  rcases hm : matchTexDirective line with _ | ⟨key, value⟩ <;>
    simp only [hm] at h
  · have : st = st2 := by simpa using h
    subst this
    exact ⟨List.Subset.refl _, Or.inl ⟨rfl, rfl, rfl⟩⟩
  · by_cases hk : key = "root"
    · rw [if_pos hk] at h
      rcases hv : value.data with _ | ⟨c, rest⟩ <;> simp only [hv] at h
      · exact absurd h (by simp)
      · by_cases hmem : pyResolveRoot rp st.startDir value ∈ st.chain
        · rw [if_pos hmem] at h
          exact absurd h (by simp)
        · rw [if_neg hmem] at h
          injection h with h2
          subst h2
          refine ⟨List.subset_append_left _ _, Or.inr ⟨rfl, ?_, hmem⟩⟩
          simp
    · rw [if_neg hk] at h
      injection h with h2
      subst h2
      exact ⟨List.Subset.refl _, Or.inl ⟨rfl, rfl, rfl⟩⟩

theorem chainRel_trans {a b c : ScanSt}
    (h1 : a.chain ⊆ b.chain ∧
      ((b.foundNewRoot = a.foundNewRoot ∧ b.texfile = a.texfile ∧
        b.chain = a.chain) ∨
       (b.foundNewRoot = true ∧ b.texfile ∈ b.chain ∧ b.texfile ∉ a.chain)))
    (h2 : b.chain ⊆ c.chain ∧
      ((c.foundNewRoot = b.foundNewRoot ∧ c.texfile = b.texfile ∧
        c.chain = b.chain) ∨
       (c.foundNewRoot = true ∧ c.texfile ∈ c.chain ∧ c.texfile ∉ b.chain))) :
    a.chain ⊆ c.chain ∧
      ((c.foundNewRoot = a.foundNewRoot ∧ c.texfile = a.texfile ∧
        c.chain = a.chain) ∨
       (c.foundNewRoot = true ∧ c.texfile ∈ c.chain ∧ c.texfile ∉ a.chain)) := by
  obtain ⟨hab, h1d⟩ := h1
  obtain ⟨hbc, h2d⟩ := h2
  refine ⟨fun x hx => hbc (hab hx), ?_⟩
  rcases h1d with ⟨hf1, ht1, hc1⟩ | ⟨hf1, ht1, hn1⟩
  · rcases h2d with ⟨hf2, ht2, hc2⟩ | ⟨hf2, ht2, hn2⟩
    · exact Or.inl ⟨hf2.trans hf1, ht2.trans ht1, hc2.trans hc1⟩
    · refine Or.inr ⟨hf2, ht2, fun hm => hn2 ?_⟩
      rw [hc1]
      exact hm
  · rcases h2d with ⟨hf2, ht2, hc2⟩ | ⟨hf2, ht2, hn2⟩
    · refine Or.inr ⟨hf2.trans hf1, ?_, ?_⟩
      · rw [ht2, hc2]
        exact ht1
      · rw [ht2]
        exact hn1
    · exact Or.inr ⟨hf2, ht2, fun hm => hn2 (hab hm)⟩

theorem scanLinesGo_chain {rp : String → String} :
    ∀ (ls : List String) (st st2 : ScanSt),
      scanLinesGo rp st ls = Except.ok st2 →
      st.chain ⊆ st2.chain ∧
        ((st2.foundNewRoot = st.foundNewRoot ∧ st2.texfile = st.texfile ∧
          st2.chain = st.chain) ∨
         (st2.foundNewRoot = true ∧ st2.texfile ∈ st2.chain ∧
          st2.texfile ∉ st.chain))
  | [], st, st2, h => by
    have : st = st2 := by simpa [scanLinesGo] using h
    subst this
    exact ⟨List.Subset.refl _, Or.inl ⟨rfl, rfl, rfl⟩⟩
  | l :: ls, st, st2, h => by
    rw [scanLinesGo] at h
    rcases hl : scanLine rp st l with e | stm <;> simp only [hl] at h
    · exact absurd h (by simp)
    · exact chainRel_trans (scanLine_chain hl)
        (scanLinesGo_chain ls stm st2 h)

theorem findStep_inl_ne_outOfFuel {rp : String → String}
    {fs : List (String × List String)} {st : ScanSt} {r : TexDirOutcome}
    (h : findStep rp fs st = Sum.inl r) : r ≠ TexDirOutcome.outOfFuel := by
  unfold findStep at h
  rcases hlk : fs.lookup st.texfile with _ | lines <;> simp only [hlk] at h
  · have : TexDirOutcome.openFail st.texfile = r := by simpa using h
    subst this
    simp
  · rcases hsf : scanFile rp { st with foundNewRoot := false } lines
        with e | stm <;> simp only [hsf] at h
    · have he : e = r := by simpa using h
      subst he
      rcases scanLinesGo_error_cases _ _ _ hsf with h1 | ⟨ch, h1⟩ <;>
        subst h1 <;> simp
    · by_cases hf : stm.foundNewRoot = true
      · rw [if_pos hf] at h
        exact absurd h (by simp)
      · rw [if_neg hf] at h
        have : TexDirOutcome.ok stm.dirs = r := by simpa using h
        subst this
        simp

theorem findStep_inr {rp : String → String}
    {fs : List (String × List String)} {st st2 : ScanSt}
    (h : findStep rp fs st = Sum.inr st2) :
    st2.foundNewRoot = true ∧ st.chain ⊆ st2.chain ∧
      st2.texfile ∈ st2.chain ∧ st2.texfile ∉ st.chain := by
  unfold findStep at h
  rcases hlk : fs.lookup st.texfile with _ | lines <;> simp only [hlk] at h
  · exact absurd h (by simp)
  · rcases hsf : scanFile rp { st with foundNewRoot := false } lines
        with e | stm <;> simp only [hsf] at h
    · exact absurd h (by simp)
    · by_cases hf : stm.foundNewRoot = true
      · rw [if_pos hf] at h
        have hst : stm = st2 := by simpa using h
        subst hst
        have hc := scanLinesGo_chain _ _ _ hsf
        have hchain : ({ st with foundNewRoot := false } : ScanSt).chain =
            st.chain := rfl
        rcases hc.2 with ⟨hf1, _, _⟩ | ⟨_, hmem, hnmem⟩
        · rw [hf] at hf1
          simp at hf1
        · exact ⟨hf, by rw [← hchain]; exact hc.1, hmem,
            by rw [← hchain] at hnmem; exact hnmem⟩
      · rw [if_neg hf] at h
        exact absurd h (by simp)

theorem lookup_none_of_not_key {fs : List (String × List String)}
    {t : String} (h : t ∉ fs.map Prod.fst) : fs.lookup t = none := by
  induction fs with
  | nil => rfl
  | cons p ps ih =>
    rcases p with ⟨k, v⟩
    simp only [List.map_cons, List.mem_cons] at h
    have h1 : t ≠ k := fun he => h (Or.inl he)
    have h2 : t ∉ ps.map Prod.fst := fun hm => h (Or.inr hm)
    simpa [List.lookup, beq_eq_false_iff_ne.mpr h1] using ih h2

theorem findTexDirectivesGo_openFail {rp : String → String}
    {fs : List (String × List String)} {st : ScanSt}
    (h : fs.lookup st.texfile = none) (fuel : Nat) :
    findTexDirectivesGo rp fs fuel st =
      TexDirOutcome.openFail st.texfile := by
  have hstep : findStep rp fs st =
      Sum.inl (TexDirOutcome.openFail st.texfile) := by
    unfold findStep
    rw [h]
  cases fuel <;> simp [findTexDirectivesGo, hstep]

theorem findTexDirectivesGo_ne_outOfFuel (rp : String → String)
    (fs : List (String × List String)) :
    ∀ (fuel : Nat) (st : ScanSt), keysLeft fs st.chain < fuel →
      findTexDirectivesGo rp fs fuel st ≠ TexDirOutcome.outOfFuel
  | 0, st, h => absurd h (Nat.not_lt_zero _)
  | fuel + 1, st, h => by
    rcases hstep : findStep rp fs st with r | st2
    · have hr := findStep_inl_ne_outOfFuel hstep
      simpa [findTexDirectivesGo, hstep] using hr
    · obtain ⟨hfnr, hsub, hmem, hnmem⟩ := findStep_inr hstep
      simp only [findTexDirectivesGo, hstep]
      by_cases hkey : st2.texfile ∈ fs.map Prod.fst
      · apply findTexDirectivesGo_ne_outOfFuel rp fs fuel st2
        have hsubF : (fs.map Prod.fst).toFinset \ st2.chain.toFinset ⊆
            (fs.map Prod.fst).toFinset \ st.chain.toFinset := by
          intro x hx
          simp only [Finset.mem_sdiff, List.mem_toFinset] at hx ⊢
          exact ⟨hx.1, fun hm => hx.2 (hsub hm)⟩
        have hwit : st2.texfile ∈
            (fs.map Prod.fst).toFinset \ st.chain.toFinset := by
          simp only [Finset.mem_sdiff, List.mem_toFinset]
          exact ⟨hkey, hnmem⟩
        have hwit2 : st2.texfile ∉
            (fs.map Prod.fst).toFinset \ st2.chain.toFinset := by
          simp only [Finset.mem_sdiff, List.mem_toFinset]
          intro hx
          exact hx.2 hmem
        have hlt : keysLeft fs st2.chain < keysLeft fs st.chain := by
          unfold keysLeft
          exact Finset.card_lt_card
            (Finset.ssubset_iff_of_subset hsubF |>.mpr
              ⟨st2.texfile, hwit, hwit2⟩)
        omega
      · have hnone : fs.lookup st2.texfile = none :=
          lookup_none_of_not_key hkey
        rw [findTexDirectivesGo_openFail hnone fuel]
        simp

theorem get?_take_of_lt :
    ∀ (l : List String) (n i : Nat), i < n →
      (l.take n).get? i = l.get? i
  | _, 0, i, h => absurd h (Nat.not_lt_zero i)
  | [], n + 1, i, _ => by simp
  | x :: xs, n + 1, 0, _ => rfl
  | x :: xs, n + 1, i + 1, h => by
    simpa using get?_take_of_lt xs n i (Nat.lt_of_succ_lt_succ h)

theorem scanFile_take20 (rp : String → String) (st : ScanSt)
    (lines : List String) :
    scanFile rp st lines = scanFile rp st (lines.take 20) := by
  unfold scanFile
  have hmap : (List.range 20).map (readLineAt lines) =
      (List.range 20).map (readLineAt (lines.take 20)) := by
    apply List.map_congr_left
    intro i hi
    unfold readLineAt
    rw [get?_take_of_lt lines 20 i (List.mem_range.mp hi)]
  rw [hmap]

theorem findStep_ext (rp : String → String)
    {fs fs2 : List (String × List String)}
    (hfs : ∀ p, (fs.lookup p).map (List.take 20) =
      (fs2.lookup p).map (List.take 20)) (st : ScanSt) :
    findStep rp fs st = findStep rp fs2 st := by
  have h := hfs st.texfile
  unfold findStep
  rcases h1 : fs.lookup st.texfile with _ | l
  · rcases h2 : fs2.lookup st.texfile with _ | l2
    · rfl
    · rw [h1, h2] at h
      simp at h
  · rcases h2 : fs2.lookup st.texfile with _ | l2
    · rw [h1, h2] at h
      simp at h
    · rw [h1, h2] at h
      have ht : l.take 20 = l2.take 20 := by simpa using h
      have hsf : scanFile rp { st with foundNewRoot := false } l =
          scanFile rp { st with foundNewRoot := false } l2 := by
        rw [scanFile_take20 rp _ l, scanFile_take20 rp _ l2, ht]
      exact congrArg
        (fun z =>
          match z with
          | Except.error e => Sum.inl e
          | Except.ok stm =>
            if stm.foundNewRoot = true then Sum.inr stm
            else Sum.inl (TexDirOutcome.ok stm.dirs)) hsf

theorem findTexDirectivesGo_ext (rp : String → String)
    {fs fs2 : List (String × List String)}
    (hfs : ∀ p, (fs.lookup p).map (List.take 20) =
      (fs2.lookup p).map (List.take 20)) :
    ∀ (fuel : Nat) (st : ScanSt),
      findTexDirectivesGo rp fs fuel st = findTexDirectivesGo rp fs2 fuel st
  | 0, st => by
    simp only [findTexDirectivesGo, findStep_ext rp hfs st]
  | fuel + 1, st => by
    simp only [findTexDirectivesGo, ← findStep_ext rp hfs st]
    rcases hstep : findStep rp fs st with r | st2 <;> simp only [hstep]
    exact findTexDirectivesGo_ext rp hfs fuel st2

theorem scanLine_loopExit {rp : String → String} {st : ScanSt}
    {line v : String} (hm : matchTexDirective line = some ("root", v))
    (hv : v ≠ "") (hmem : pyResolveRoot rp st.startDir v ∈ st.chain) :
    scanLine rp st line = Except.error (TexDirOutcome.loopExit st.chain) := by
  unfold scanLine
  simp only [hm, if_true]
  rcases hd : v.data with _ | ⟨c, rest⟩
  · exact absurd (String.ext hd) hv
  · simp only [hd]
    rw [if_pos hmem]

/-- Claim C10: `find_TEX_directives` examines at most the first 20 lines of
each file in the root chain (two filesystems agreeing on the first 20 lines
of every file produce the same outcome), terminates on every input (the
bounded model never exhausts its fuel), and whenever a `root` directive
resolves to a file already present in the chain of visited root files the
scan exits with the loop error instead of following the cycle. -/
theorem find_TEX_directives_spec :
    (∀ (rp : String → String) (fs fs2 : List (String × List String))
       (texfile : String), fs.length = fs2.length →
       (∀ p, (fs.lookup p).map (List.take 20) =
         (fs2.lookup p).map (List.take 20)) →
       find_TEX_directives rp fs texfile =
         find_TEX_directives rp fs2 texfile) ∧
    (∀ (rp : String → String) (fs : List (String × List String))
       (texfile : String),
       find_TEX_directives rp fs texfile ≠ TexDirOutcome.outOfFuel) ∧
    (∀ (rp : String → String) (st : ScanSt) (line v : String),
       matchTexDirective line = some ("root", v) → v ≠ "" →
       pyResolveRoot rp st.startDir v ∈ st.chain →
       scanLine rp st line =
         Except.error (TexDirOutcome.loopExit st.chain)) := by
  refine ⟨?_, ?_, ?_⟩
  · intro rp fs fs2 texfile hlen hfs
    unfold find_TEX_directives
    rw [hlen]
    exact findTexDirectivesGo_ext rp hfs _ _
  · intro rp fs texfile
    unfold find_TEX_directives
    apply findTexDirectivesGo_ne_outOfFuel
    have h1 : keysLeft fs (initScanSt texfile).chain ≤
        (fs.map Prod.fst).toFinset.card := by
      unfold keysLeft
      exact Finset.card_le_card (Finset.sdiff_subset)
    have h2 : (fs.map Prod.fst).toFinset.card ≤ (fs.map Prod.fst).length :=
      (fs.map Prod.fst).toFinset_card_le
    rw [List.length_map] at h2
    omega
  · intro rp st line v hm hv hmem
    exact scanLine_loopExit hm hv hmem

theorem find_TEX_directives_spec_witness :
    find_TEX_directives id [("/a.tex", ["x"])] "/a.tex" =
      find_TEX_directives id [("/a.tex", ["x"])] "/a.tex" ∧
    find_TEX_directives id [("/a.tex", ["x"])] "/a.tex" ≠
      TexDirOutcome.outOfFuel ∧
    scanLine id (initScanSt "/a.tex") "%!TEX root =/a.tex" =
      Except.error (TexDirOutcome.loopExit ["/a.tex"]) :=
  ⟨find_TEX_directives_spec.1 id [("/a.tex", ["x"])] [("/a.tex", ["x"])]
      "/a.tex" rfl (fun _ => rfl),
   find_TEX_directives_spec.2.1 id [("/a.tex", ["x"])] "/a.tex",
   find_TEX_directives_spec.2.2 id (initScanSt "/a.tex")
      "%!TEX root =/a.tex" "/a.tex" (by decide) (by decide) (by decide)⟩
